import Mathlib

/-!
# Verification of the crux-cache chunk-manifest download protocol

Shallow embedding of the two download paths of the `lonetis/crux-cache`
repository:

* `download.sh` — the shell CLI downloader.  The script is a straight-line
  sequence of `curl` calls and `grep`/`cut` text extractions over the raw
  manifest text, followed by a chunk loop that appends each fetched chunk
  body to `<YYYYMM>.csv`.  Text is modelled as `List Char`; the grep-based
  extractions are implemented below character by character.  `curl -sSL`
  (the exact invocation used by the script — note the absence of `-f`) is
  modelled by `CurlResult`: a network-level failure makes curl exit
  non-zero with no output, while an HTTP error response (404 etc.) makes
  curl exit 0 and print the server's error body (for
  `raw.githubusercontent.com` the text `404: Not Found`).

* `docs/download.js` — the browser streaming engine
  (`StreamingDownloader.downloadMonth` / `streamDownload`).  The fetch
  results and the state of `abortController.signal` at each chunk-boundary
  check are supplied by an oracle `JsEnv`; the model returns the full
  `onProgress` event trace, the terminal outcome (blob artifact handed to
  the browser, or an errored stream) and the number of `fetch` calls
  issued.

Both models follow the source line by line; scenario inputs used by the
theorems are written out as plain string constants.
-/

set_option maxRecDepth 40000

namespace CruxCache

/-- Character-list text, the carrier for all byte/stream contents.  The CSV
data is ASCII, so byte counts and character counts coincide. -/
abbrev Text := List Char

/-- Does `pat` occur as a prefix of `s`? -/
def startsWith : Text → Text → Bool
  | [], _ => true
  | _ :: _, [] => false
  | p :: ps, c :: cs => p == c && startsWith ps cs

/-- Does `pat` occur as a substring of the text?  (`grep` with a literal
pattern that contains no newline matches some line iff the pattern is a
substring of the whole text.) -/
def containsSub (pat : Text) : Text → Bool
  | [] => startsWith pat []
  | c :: rest => startsWith pat (c :: rest) || containsSub pat rest

/-- Split a text at `'\n'` terminators: returns the list of completed
(terminator-stripped) lines and the trailing unterminated fragment.  This is
exactly the JavaScript idiom `lines = buffer.split('\n'); buffer = lines.pop()`
seen in `streamDownload`: the first component is `lines`, the second the new
`buffer`. -/
def splitNl : Text → List Text × Text
  | [] => ([], [])
  | c :: rest =>
    let (ls, t) := splitNl rest
    if c = '\n' then ([] :: ls, t)
    else
      match ls with
      | [] => ([], c :: t)
      | l :: ls1 => ((c :: l) :: ls1, t)

/-- The lines of a text as `grep` sees them: completed lines plus the final
unterminated fragment, if nonempty. -/
def linesOf (t : Text) : List Text :=
  let (ls, tr) := splitNl t
  if tr = [] then ls else ls ++ [tr]

/-- Rejoin lines with `'\n'` (the shape of text flowing through a shell
pipeline between two greps). -/
def joinNl : List Text → Text
  | [] => []
  | [l] => l
  | l :: ls => l ++ '\n' :: joinNl ls

/-- Take characters up to the next `'"'`; `none` if the text ends first
(an unterminated value, which the grep pattern would not match). -/
def takeUntilQuote : Text → Option Text
  | [] => none
  | c :: rest => if c = '"' then some [] else (takeUntilQuote rest).map (c :: ·)

/-- Positioned directly after a `"key":` occurrence, match the ` *"VALUE"`
part of the grep pattern `"key": *"[^"]*"`: skip spaces, require an opening
quote, and read the value up to the closing quote. -/
def valueAt (s : Text) : Option Text :=
  match s.dropWhile (· == ' ') with
  | '"' :: rest => takeUntilQuote rest
  | _ => none

/-- First occurrence of `"key": *"VALUE"` in the text, returning `VALUE`.
This is `grep -o '"key": *"[^"]*"' | cut -d'"' -f4` restricted to its first
match (the script's manifests declare the key once). -/
def scanKeyValue (key : Text) : Text → Option Text
  | [] => none
  | c :: rest =>
    if startsWith key (c :: rest) then
      match valueAt ((c :: rest).drop key.length) with
      | some v => some v
      | none => scanKeyValue key rest
    else scanKeyValue key rest

/-- All occurrences of `"key": *"VALUE"` in the text, in order — the chunk
`grep -o '"filename": *"[^"]*"' | cut -d'"' -f4` pipeline.  Matches of this
key shape cannot overlap, so the one-character scan finds exactly the grep
matches. -/
def extractAllKV (key : Text) : Text → List Text
  | [] => []
  | c :: rest =>
    if startsWith key (c :: rest) then
      match valueAt ((c :: rest).drop key.length) with
      | some v => v :: extractAllKV key rest
      | none => extractAllKV key rest
    else extractAllKV key rest

/-- `grep -A n pat` over a list of lines: each matching line is kept and
(re)arms a countdown of `n` trailing lines that are also kept.  (The `--`
group separators grep inserts contain no key-value pattern and are omitted.) -/
def grepA (n : Nat) (pat : Text) : List Text → Nat → List Text
  | [], _ => []
  | l :: rest, k =>
    if containsSub pat l then l :: grepA n pat rest n
    else if 0 < k then l :: grepA n pat rest (k - 1)
    else grepA n pat rest 0

/-- The script's month-format validation `^[0-9]{6}$`. -/
def isSixDigits (m : String) : Bool :=
  m.length = 6 && m.toList.all (·.isDigit)

/-- The quoted form `"m"` used as grep pattern for a month. -/
def quoted (m : String) : Text := '"' :: (m.toList ++ ['"'])

def latestMonthKeyS : String := "\"latest_month\":"

def filenameKeyS : String := "\"filename\":"

/-- download.sh line 71: `echo "$MANIFEST" | grep -q "\"$TARGET_MONTH\""`. -/
def mentionsMonth (t : Text) (m : String) : Bool :=
  containsSub (quoted m) t

/-- download.sh line 82: extract the declared latest month from the raw
manifest text. -/
def latestMonthOf (t : Text) : Option String :=
  (scanKeyValue latestMonthKeyS.toList t).map fun v => String.mk v

/-- download.sh line 93: `grep -A 1000 "\"$TARGET_MONTH\"" | grep -o
'"filename": *"[^"]*"' | cut -d'"' -f4` — the ordered chunk filenames
selected for the target month. -/
def chunksOf (t : Text) (m : String) : List String :=
  (extractAllKV filenameKeyS.toList (joinNl (grepA 1000 (quoted m) (linesOf t) 0))).map
    fun v => String.mk v

/-! ## The shell downloader (`download.sh`) -/

/-- Result of one `curl -sSL <url>` invocation as the script observes it.
Because the script does not pass `-f` (`--fail`), an HTTP error response still
exits 0 and writes the server's error body to stdout; only a network-level
failure exits non-zero (with stdout empty and stderr discarded by
`2>/dev/null`). -/
inductive CurlResult where
  | netFail
  | httpError (body : Text)
  | ok (body : Text)
deriving Repr, DecidableEq

/-- Exit status of the curl invocation (true = 0). -/
def CurlResult.exitOk : CurlResult → Bool
  | .netFail => false
  | _ => true

/-- What the invocation wrote to stdout. -/
def CurlResult.output : CurlResult → Text
  | .netFail => []
  | .httpError b => b
  | .ok b => b

/-- The network as seen by one script run: the manifest fetch result and the
result of fetching the i-th listed chunk (0-based). URLs are determined by
dataset and filename and are abstracted into these two fields. -/
structure ShellEnv where
  manifest : CurlResult
  chunk : Nat → CurlResult

/-- Terminal outcome of a script run, one constructor per `exit` site. -/
inductive ShellOutcome where
  /-- line 33: usage text, exit 1 (empty dataset argument). -/
  | usageError
  /-- line 40: month not in `YYYYMM` format, exit 1. -/
  | badMonthFormat
  /-- manifest curl exited non-zero: `set -e` (line 15) aborts the script at
  the `MANIFEST=$(curl ...)` assignment, before line 58 runs, so no
  diagnostic is printed. -/
  | manifestNetFail
  /-- line 59: `Dataset not found`, exit 1 — reached only when the fetched
  manifest body is empty, since a curl network failure already aborted via
  `set -e` and an HTTP 404 yields exit 0 with the nonempty error page. -/
  | datasetNotFound
  /-- line 72: `Month not found in dataset`, exit 1. -/
  | monthNotFound
  /-- line 85: `No data available`, exit 1 (no `latest_month` in the text). -/
  | noData
  /-- line 97: `No chunks found`, exit 1. -/
  | noChunks
  /-- line 127: `Failed to download <chunk i>`; the partial output file is
  removed (`rm -f`), exit 1. -/
  | chunkFailed (i : Nat)
  /-- fall through to line 139 `Download complete`, exit 0. -/
  | completed
deriving Repr, DecidableEq

/-- Whether the run exits with status 0. -/
def ShellOutcome.exitsZero : ShellOutcome → Bool
  | .completed => true
  | _ => false

/-- Whether the run prints an error diagnostic.  `manifestNetFail` prints
nothing: `set -e` kills the script silently and curl's stderr was sent to
`/dev/null`. -/
def ShellOutcome.printsDiagnostic : ShellOutcome → Bool
  | .completed => false
  | .manifestNetFail => false
  | _ => true

/-- Observable result of a script run.  `outFile` is the state of
`<resolvedMonth>.csv` in the working directory after the run (the only file
the script touches); `fileAtFirstFetch` records that file's state at the
moment the first chunk curl was issued (`none` if no chunk was ever
fetched). -/
structure ShellResult where
  outcome : ShellOutcome
  resolvedMonth : Option String
  outFile : Option Text
  chunksFetched : Nat
  fileAtFirstFetch : Option (Option Text)
deriving Repr, DecidableEq

/-- Arguments after the script's defaulting (`DATASET="${1:-global}"`,
`REQUESTED_MONTH="${2:-}"`). -/
structure ShellArgs where
  dataset : String
  requestedMonth : Option String

/-- Lines 37-42: the format check runs only when a month was supplied. -/
def monthFormatOk : Option String → Bool
  | none => true
  | some m => isSixDigits m

/-- Lines 113-131: the chunk download loop.  Each iteration runs
`curl -sSL "$CHUNK_URL" >> "$OUTPUT_FILE"`: on curl exit 0 the stdout —
the chunk body, or, for an HTTP error response, the server's error page —
is appended and the loop continues; on curl network failure the script
removes the partial file and exits 1.  `file` is the current output file
state, `seen` the recorded state at the first fetch. -/
def chunkLoop (env : ShellEnv) (month : String) :
    Nat → List String → Option Text → Nat → Option (Option Text) → ShellResult
  | _, [], file, fetched, seen =>
    ⟨.completed, some month, file, fetched, seen⟩
  | i, _ :: rest, file, fetched, seen =>
    let seen1 := match seen with
      | some s => some s
      | none => some file
    match env.chunk i with
    | .netFail =>
      ⟨.chunkFailed i, some month, none, fetched + 1, seen1⟩
    | .httpError b =>
      chunkLoop env month (i + 1) rest (some (file.getD [] ++ b)) (fetched + 1) seen1
    | .ok b =>
      chunkLoop env month (i + 1) rest (some (file.getD [] ++ b)) (fetched + 1) seen1

/-- Lines 92-131 for an already-resolved target month: extract the chunk
list, bail out if it is empty (the pre-existing file is left untouched —
the removal at lines 107-110 happens after this check), remove any existing
`<month>.csv` (the loop therefore starts from an absent file), and run the
loop. -/
def afterResolve (env : ShellEnv) (m : String) (body : Text) (pre : Option Text) :
    ShellResult :=
  let cs := chunksOf body m
  if cs = [] then ⟨.noChunks, some m, pre, 0, none⟩
  else chunkLoop env m 0 cs none 0 none

/-- The whole script run, from argument validation to completion.
`pre` is the pre-existing state of the output file in the working
directory.  The dataset lowercasing at line 45 only affects the URL, which
is abstracted into `env`; the informational `echo`s are not observable
here. -/
def runScript (env : ShellEnv) (args : ShellArgs) (pre : Option Text) : ShellResult :=
  if args.dataset.isEmpty then ⟨.usageError, none, pre, 0, none⟩
  else if ¬ monthFormatOk args.requestedMonth then ⟨.badMonthFormat, none, pre, 0, none⟩
  else if env.manifest.exitOk = false then ⟨.manifestNetFail, none, pre, 0, none⟩
  else
    let body := env.manifest.output
    if body = [] then ⟨.datasetNotFound, none, pre, 0, none⟩
    else
      match args.requestedMonth with
      | some m =>
        if mentionsMonth body m then afterResolve env m body pre
        else ⟨.monthNotFound, none, pre, 0, none⟩
      | none =>
        match latestMonthOf body with
        | some m => afterResolve env m body pre
        | none => ⟨.noData, none, pre, 0, none⟩

/-! ## The browser streaming engine (`docs/download.js`) -/

/-- Result of `fetch(chunkUrl, { signal })` for one chunk, together with how
the body read loop goes:

* `netFail` — the fetch promise rejects (network error);
* `notOk status` — a response arrives with `response.ok` false, and
  `streamDownload` throws `Failed to fetch chunk i+1: status`;
* `reads rs` — the body is delivered by `reader.read()` in the successive
  pieces `rs`, then `done`;
* `readsThenAbort rs` — the pieces `rs` are delivered and then the
  in-flight read rejects with `AbortError` (a mid-transfer cancellation).
-/
inductive JsChunkFetch where
  | netFail
  | notOk (status : Nat)
  | reads (rs : List Text)
  | readsThenAbort (rs : List Text)

/-- Oracle for one `streamDownload` run: `aborted i` is the value of
`abortController.signal.aborted` at the check performed before chunk `i`,
and `fetch i` the outcome of the chunk-`i` fetch. -/
structure JsEnv where
  aborted : Nat → Bool
  fetch : Nat → JsChunkFetch

/-- One `onProgress` notification, with the payload fields the source
passes (`chunkIndex`, `totalChunks`, `bytesDownloaded`, `totalBytes`). -/
inductive JsEvent where
  | chunkStart (chunkIndex totalChunks bytesDownloaded totalBytes : Nat)
  | progress (chunkIndex totalChunks bytesDownloaded totalBytes : Nat)
  | complete (bytesDownloaded totalBytes : Nat)
deriving Repr, DecidableEq

/-- The `bytesDownloaded` field of a notification. -/
def JsEvent.bytes : JsEvent → Nat
  | .chunkStart _ _ b _ => b
  | .progress _ _ b _ => b
  | .complete b _ => b

/-- Is this the terminal `complete` notification?  (The source never emits
any `failed`-type notification: failures surface only as the promise
rejecting.) -/
def JsEvent.isComplete : JsEvent → Bool
  | .complete _ _ => true
  | _ => false

/-- The error carried by `controller.error(error); throw error`. -/
inductive JsError where
  | httpNotOk (chunkIndex status : Nat)
  | networkError
  | abortError
deriving Repr, DecidableEq

/-- How a `streamDownload` run ends.

* `artifact filename content` — the stream was closed, so
  `new Response(stream).blob()` resolves and lines 218-226 create an `<a>`
  element with `download = filename` and click it: the browser saves
  `content` as a finished file.
* `failed e` — `controller.error` was called; `blob()` rejects with `e`
  and no download link is ever created. -/
inductive JsOutcome where
  | artifact (filename : String) (content : Text)
  | failed (e : JsError)
deriving Repr, DecidableEq

/-- Observable result of `streamDownload`: the `onProgress` trace in order,
the outcome, the number of `fetch` calls issued, and the final value of
`bytesDownloaded`. -/
structure JsRunResult where
  events : List JsEvent
  outcome : JsOutcome
  fetches : Nat
  finalBytes : Nat
deriving Repr, DecidableEq

/-- State threaded through the `while (true)` read loop of one chunk. -/
structure ReadsOut where
  bytes : Nat
  buffer : Text
  emitted : Text
  events : List JsEvent
deriving Repr, DecidableEq

/-- Each completed line is enqueued as `line + '\n'` (line 185). -/
def joinLines (ls : List Text) : Text :=
  (ls.map fun l => l ++ ['\n']).flatten

/-- Lines 171-195: the read loop of chunk `i`.  Each delivered piece is
appended to `buffer`, the completed lines are split off and enqueued, the
unterminated tail is kept in `buffer`, and a `progress` notification with
the accumulated `bytesDownloaded` is fired. -/
def procReads (i tc tB : Nat) : Nat → Text → List Text → ReadsOut
  | bytes, buffer, [] => ⟨bytes, buffer, [], []⟩
  | bytes, buffer, r :: rs =>
    let bytes1 := bytes + r.length
    let rest := procReads i tc tB bytes1 (splitNl (buffer ++ r)).2 rs
    ⟨rest.bytes, rest.buffer, joinLines (splitNl (buffer ++ r)).1 ++ rest.emitted,
      .progress i tc bytes1 tB :: rest.events⟩

def artifactPrefixS : String := "crux_"

def underscoreS : String := "_"

def csvSuffixS : String := ".csv"

/-- Line 222: `crux_${dataset}_${yyyymm}.csv`. -/
def artifactName (dataset yyyymm : String) : String :=
  artifactPrefixS ++ dataset ++ underscoreS ++ yyyymm ++ csvSuffixS

/-- Lines 138-214: the `start(controller)` body, iterating over the
remaining chunks from index `i` with accumulated `bytesDownloaded` and
enqueued content `acc`.

* With no chunks left, the stream is closed and the single terminal
  `complete` notification fired — the blob resolves to `acc`.
* If the abort signal is observed at the boundary check (lines 142-145) the
  code runs `controller.close(); return`: the stream closes *normally*,
  without any terminal notification, and the partial blob is still handed
  to the download link.
* A fetch rejection, a non-ok status, or an `AbortError` during a read all
  land in the catch (lines 202-205): `controller.error` is called and the
  run fails with no artifact.
* After a successful chunk, the leftover `buffer` is flushed as a line of
  its own with an appended `'\n'` (lines 197-200) — the carry-over is *not*
  propagated into the next chunk. -/
def streamDownloadAux (env : JsEnv) (dataset yyyymm : String) (tc tB : Nat) :
    Nat → List String → Nat → Text → JsRunResult
  | _, [], bytes, acc =>
    ⟨[.complete bytes tB], .artifact (artifactName dataset yyyymm) acc, 0, bytes⟩
  | i, _ :: rest, bytes, acc =>
    if env.aborted i then
      ⟨[], .artifact (artifactName dataset yyyymm) acc, 0, bytes⟩
    else
      let ev0 := JsEvent.chunkStart i tc bytes tB
      match env.fetch i with
      | .netFail => ⟨[ev0], .failed .networkError, 1, bytes⟩
      | .notOk s => ⟨[ev0], .failed (.httpNotOk i s), 1, bytes⟩
      | .readsThenAbort rs =>
        let ro := procReads i tc tB bytes [] rs
        ⟨ev0 :: ro.events, .failed .abortError, 1, ro.bytes⟩
      | .reads rs =>
        let ro := procReads i tc tB bytes [] rs
        let flush := if ro.buffer = [] then [] else ro.buffer ++ ['\n']
        let r := streamDownloadAux env dataset yyyymm tc tB (i + 1) rest ro.bytes
          (acc ++ ro.emitted ++ flush)
        ⟨ev0 :: ro.events ++ r.events, r.outcome, r.fetches + 1, r.finalBytes⟩

/-- `streamDownload(yyyymm, monthData, onProgress)` for the chunk list and
total size taken from the month's manifest entry. -/
def streamDownload (env : JsEnv) (dataset yyyymm : String)
    (chunks : List String) (totalSize : Nat) : JsRunResult :=
  streamDownloadAux env dataset yyyymm chunks.length totalSize 0 chunks 0 []

/-- One month entry of the browser manifest (`manifest.months[yyyymm]`). -/
structure JsMonth where
  chunks : List String
  total_size : Nat

/-- The browser manifest: `summary.latest_month` plus the months map. -/
structure JsManifest where
  latest_month : String
  months : List (String × JsMonth)

/-- The two instance fields `downloadMonth` guards and resets
(`isDownloading`, `abortController` — `hasAbortController` models
`abortController !== null`). -/
structure DLState where
  isDownloading : Bool
  hasAbortController : Bool
deriving Repr, DecidableEq

/-- How `downloadMonth` can reject. -/
inductive DMError where
  /-- line 107: `Download already in progress`. -/
  | alreadyInProgress
  /-- line 112: `Month ${yyyymm} not found in manifest`. -/
  | monthNotFound (yyyymm : String)
  /-- the awaited `streamDownload` rejected with a stream error. -/
  | downloadFailed (e : JsError)
deriving Repr, DecidableEq

/-- Observable result of one `downloadMonth` call: resolution or rejection,
the instance state afterwards, and the number of chunk fetches issued. -/
structure DMResult where
  result : Except DMError JsRunResult
  state : DLState
  fetches : Nat

/-- Lines 105-124: `downloadMonth(yyyymm, onProgress)`.  The guard throws
before any state change or fetch; a missing month throws before
`isDownloading` is set; otherwise the instance enters
`{isDownloading: true, abortController: new AbortController()}`, awaits
`streamDownload`, and the `finally` block restores
`{isDownloading: false, abortController: null}` on success, error and
cancellation alike. -/
def downloadMonth (st : DLState) (dataset : String) (manifest : JsManifest)
    (yyyymm : String) (env : JsEnv) : DMResult :=
  if st.isDownloading then ⟨.error .alreadyInProgress, st, 0⟩
  else
    match manifest.months.lookup yyyymm with
    | none => ⟨.error (.monthNotFound yyyymm), st, 0⟩
    | some md =>
      let r := streamDownload env dataset yyyymm md.chunks md.total_size
      match r.outcome with
      | .artifact _ _ => ⟨.ok r, ⟨false, false⟩, r.fetches⟩
      | .failed e => ⟨.error (.downloadFailed e), ⟨false, false⟩, r.fetches⟩

/-! ## Concrete inputs used by the theorems

The merge scenario is the one from the specification: month `202510` with
two chunks whose boundary splits the row `https://b.com,1000`.  The
manifest samples keep exactly the text the script's greps consume (the
script treats `manifest.json` as raw text; the surrounding JSON braces
carry no information for those greps). -/

def globalS : String := "global"

def month202510S : String := "202510"

def chunk1S : String := "origin,rank\nhttps://a.com,1000\nhttps://b.co"

def chunk2S : String := "m,1000\nhttps://c.com,5000\n"

def headerS : String := "origin,rank"

def rowAS : String := "https://a.com,1000"

def rowBS : String := "https://b.com,1000"

def rowCS : String := "https://c.com,5000"

def fragB1S : String := "https://b.co"

def fragB2S : String := "m,1000"

/-- Byte concatenation of the two chunks — what the shell loop's
`curl >> file` produces. -/
def mergedS : String := chunk1S ++ chunk2S

/-- Chunk 1 with its header line removed. -/
def nonHeader1S : String := "https://a.com,1000\nhttps://b.co"

/-- Concatenation, in chunk order, of the chunks' non-header content. -/
def nonHeaderConcatS : String := nonHeader1S ++ chunk2S

/-- What the browser engine actually enqueues for the scenario: the chunk-1
carry-over `https://b.co` is flushed as a line of its own and chunk 2's
leading fragment `m,1000` starts a fresh buffer. -/
def jsBuggyOutS : String :=
  "origin,rank\nhttps://a.com,1000\nhttps://b.co\nm,1000\nhttps://c.com,5000\n"

def chunkFile0S : String := "chunk_000.csv"

def chunkFile1S : String := "chunk_001.csv"

def chunkFile2S : String := "chunk_002.csv"

/-- Manifest text declaring month 202510 with two chunks. -/
def manifest2S : String :=
  "\"latest_month\": \"202510\"\n\"202510\":\n\"filename\": \"chunk_000.csv\"\n\"filename\": \"chunk_001.csv\"\n"

/-- Manifest text declaring month 202510 with three chunks. -/
def manifest3S : String :=
  "\"latest_month\": \"202510\"\n\"202510\":\n\"filename\": \"chunk_000.csv\"\n\"filename\": \"chunk_001.csv\"\n\"filename\": \"chunk_002.csv\"\n"

/-- Manifest text declaring a latest month but listing no chunk files. -/
def manifestNoChunksS : String := "\"latest_month\": \"202510\"\n\"months\":\n"

/-- The body `raw.githubusercontent.com` serves for a missing path; `curl`
without `-f` exits 0 and prints it. -/
def notFoundS : String := "404: Not Found"

def nosuchS : String := "nosuch"

def part0S : String := "origin,rank\nhttps://a.com,1000\n"

def part2S : String := "https://c.com,5000\n"

def oldS : String := "oldcontent\n"

/-- Shell run of the specification's merge scenario: manifest and both
chunk fetches succeed. -/
def envShellScenario : ShellEnv :=
  ⟨.ok manifest2S.toList,
   fun i => if i = 0 then .ok chunk1S.toList else .ok chunk2S.toList⟩

/-- Shell run against an absent dataset: the manifest URL answers HTTP 404,
which `curl -sSL` reports as a success whose stdout is the error page. -/
def envShell404 : ShellEnv :=
  ⟨.httpError notFoundS.toList, fun _ => .netFail⟩

/-- Shell run where the middle of three chunks answers HTTP 404 and the
others succeed. -/
def envShellHttpErr : ShellEnv :=
  ⟨.ok manifest3S.toList,
   fun i =>
     if i = 0 then .ok part0S.toList
     else if i = 1 then .httpError notFoundS.toList
     else .ok part2S.toList⟩

/-- Shell run where the last of two chunks answers HTTP 404. -/
def envShellLast404 : ShellEnv :=
  ⟨.ok manifest2S.toList,
   fun i => if i = 0 then .ok part0S.toList else .httpError notFoundS.toList⟩

/-- File produced by `envShellHttpErr`: the error page is appended between
the two good chunks. -/
def corrupted3S : String := part0S ++ notFoundS ++ part2S

/-- File produced by `envShellLast404`. -/
def corrupted2S : String := part0S ++ notFoundS

/-- Shell run whose manifest mentions the month but lists no chunks. -/
def envShellNoChunks : ShellEnv :=
  ⟨.ok manifestNoChunksS.toList, fun _ => .netFail⟩

/-- Shell run where the second chunk fetch fails at the network level. -/
def envShellChunkFail : ShellEnv :=
  ⟨.ok manifest2S.toList,
   fun i => if i = 0 then .ok part0S.toList else .netFail⟩

/-- Browser run of the merge scenario: no cancellation, each chunk body
delivered in one read. -/
def envJsScenario : JsEnv :=
  ⟨fun _ => false,
   fun i => if i = 0 then .reads [chunk1S.toList] else .reads [chunk2S.toList]⟩

/-- Browser run cancelled at the chunk boundary after chunk 0: the signal
reads aborted from the check before chunk 1 on. -/
def envJsAbortBoundary : JsEnv :=
  ⟨fun i => decide (1 ≤ i), fun _ => .reads [part0S.toList]⟩

/-- Browser run with no cancellation and every chunk delivered in one
read. -/
def envJsClean : JsEnv :=
  ⟨fun _ => false, fun _ => .reads [part0S.toList]⟩

/-- Browser manifest with one month of three chunks, 93 bytes in total. -/
def mfJs : JsManifest :=
  ⟨month202510S, [(month202510S, ⟨[chunkFile0S, chunkFile1S, chunkFile2S], 93⟩)]⟩

/-! ## Helper lemmas -/

/-- Once the first-fetch file state has been recorded, the loop carries it
through unchanged. -/
theorem chunkLoop_seen_fixed (env : ShellEnv) (month : String) :
    ∀ (cs : List String) (i : Nat) (file : Option Text) (fetched : Nat) (s : Option Text),
      (chunkLoop env month i cs file fetched (some s)).fileAtFirstFetch = some s := by
  intro cs
  induction cs with
  | nil => intro i file fetched s; rfl
  | cons c cs ih =>
    intro i file fetched s
    unfold chunkLoop
    cases h : env.chunk i with
    | netFail => simp [h]
    | httpError b => simp [h, ih]
    | ok b => simp [h, ih]

/-- A loop started from an absent output file either never fetches or
records that the file was absent at the first fetch. -/
theorem chunkLoop_start_seen (env : ShellEnv) (month : String) :
    ∀ (cs : List String) (i : Nat) (fetched : Nat),
      (chunkLoop env month i cs none fetched none).fileAtFirstFetch = none
      ∨ (chunkLoop env month i cs none fetched none).fileAtFirstFetch = some none := by
  intro cs
  cases cs with
  | nil => intro i fetched; exact Or.inl rfl
  | cons c cs =>
    intro i fetched
    right
    unfold chunkLoop
    cases h : env.chunk i with
    | netFail => simp [h]
    | httpError b => simp [h, chunkLoop_seen_fixed]
    | ok b => simp [h, chunkLoop_seen_fixed]

/-- Whenever the loop ends in a chunk failure, the output file has been
removed. -/
theorem chunkLoop_failed_outFile (env : ShellEnv) (month : String) :
    ∀ (cs : List String) (i : Nat) (file : Option Text) (fetched : Nat)
      (seen : Option (Option Text)) (j : Nat),
      (chunkLoop env month i cs file fetched seen).outcome = .chunkFailed j →
      (chunkLoop env month i cs file fetched seen).outFile = none := by
  intro cs
  induction cs with
  | nil =>
    intro i file fetched seen j h
    exact absurd h (by simp [chunkLoop])
  | cons c cs ih =>
    intro i file fetched seen j h
    unfold chunkLoop at h ⊢
    cases hc : env.chunk i with
    | netFail => simp [hc]
    | httpError b =>
      rw [hc] at h
      exact ih _ _ _ _ j h
    | ok b =>
      rw [hc] at h
      exact ih _ _ _ _ j h

/-- Appending two non-decreasing lists whose elements are cross-bounded
yields a non-decreasing list. -/
theorem sorted_le_append {l₁ l₂ : List Nat}
    (h₁ : l₁.Sorted (· ≤ ·)) (h₂ : l₂.Sorted (· ≤ ·))
    (h : ∀ a ∈ l₁, ∀ b ∈ l₂, a ≤ b) : (l₁ ++ l₂).Sorted (· ≤ ·) := by
  induction l₁ with
  | nil => simpa using h₂
  | cons a l ih =>
    rw [List.cons_append]
    rw [List.sorted_cons] at h₁ ⊢
    refine ⟨?_, ih h₁.2 ?_⟩
    · intro b hb
      rcases List.mem_append.mp hb with hb | hb
      · exact h₁.1 b hb
      · exact h a (List.mem_cons_self a l) b hb
    · intro x hx b hb
      exact h x (List.mem_cons_of_mem a hx) b hb

/-- The read loop of one chunk: `bytesDownloaded` only grows, every
notification it fires carries a value between the entry and exit counts, is
never a terminal one, and the fired sequence is non-decreasing. -/
theorem procReads_spec (i tc tB : Nat) :
    ∀ (rs : List Text) (bytes : Nat) (buffer : Text),
      bytes ≤ (procReads i tc tB bytes buffer rs).bytes
      ∧ (∀ e ∈ (procReads i tc tB bytes buffer rs).events,
          bytes ≤ e.bytes ∧ e.bytes ≤ (procReads i tc tB bytes buffer rs).bytes
            ∧ e.isComplete = false)
      ∧ ((procReads i tc tB bytes buffer rs).events.map JsEvent.bytes).Sorted (· ≤ ·) := by
  intro rs
  induction rs with
  | nil =>
    intro bytes buffer
    refine ⟨Nat.le_refl _, ?_, ?_⟩ <;> simp [procReads]
  | cons r rs ih =>
    intro bytes buffer
    obtain ⟨ih1, ih2, ih3⟩ := ih (bytes + r.length) (splitNl (buffer ++ r)).2
    have hstep : bytes ≤ bytes + r.length := Nat.le_add_right _ _
    refine ⟨?_, ?_, ?_⟩
    · exact Nat.le_trans hstep ih1
    · intro e he
      simp only [procReads, List.mem_cons] at he
      rcases he with he | he
      · subst he
        exact ⟨hstep, by simpa [procReads, JsEvent.bytes] using ih1, rfl⟩
      · obtain ⟨h1, h2, h3⟩ := ih2 e he
        exact ⟨Nat.le_trans hstep h1, by simpa [procReads] using h2, h3⟩
    · simp only [procReads, List.map_cons, List.sorted_cons]
      refine ⟨?_, ih3⟩
      intro b hb
      obtain ⟨e, he, rfl⟩ := List.mem_map.mp hb
      exact (ih2 e he).1

/-- Step equation for `streamDownloadAux`: a boundary abort closes the
stream immediately. -/
theorem streamAux_aborted (env : JsEnv) (d m : String) (tc tB i bytes : Nat)
    (acc : Text) (c : String) (cs : List String) (ha : env.aborted i = true) :
    streamDownloadAux env d m tc tB i (c :: cs) bytes acc
      = ⟨[], .artifact (artifactName d m) acc, 0, bytes⟩ := by
  simp [streamDownloadAux, ha]

/-- Step equation for `streamDownloadAux`: a rejected fetch errors the
stream after the `chunk` notification. -/
theorem streamAux_netFail (env : JsEnv) (d m : String) (tc tB i bytes : Nat)
    (acc : Text) (c : String) (cs : List String)
    (ha : env.aborted i = false) (hf : env.fetch i = .netFail) :
    streamDownloadAux env d m tc tB i (c :: cs) bytes acc
      = ⟨[.chunkStart i tc bytes tB], .failed .networkError, 1, bytes⟩ := by
  simp [streamDownloadAux, ha, hf]

/-- Step equation for `streamDownloadAux`: a non-ok response errors the
stream after the `chunk` notification. -/
theorem streamAux_notOk (env : JsEnv) (d m : String) (tc tB i bytes : Nat)
    (acc : Text) (c : String) (cs : List String) (s : Nat)
    (ha : env.aborted i = false) (hf : env.fetch i = .notOk s) :
    streamDownloadAux env d m tc tB i (c :: cs) bytes acc
      = ⟨[.chunkStart i tc bytes tB], .failed (.httpNotOk i s), 1, bytes⟩ := by
  simp [streamDownloadAux, ha, hf]

/-- Step equation for `streamDownloadAux`: a mid-transfer abort errors the
stream after the reads delivered so far. -/
theorem streamAux_readsThenAbort (env : JsEnv) (d m : String) (tc tB i bytes : Nat)
    (acc : Text) (c : String) (cs : List String) (rs : List Text)
    (ha : env.aborted i = false) (hf : env.fetch i = .readsThenAbort rs) :
    streamDownloadAux env d m tc tB i (c :: cs) bytes acc
      = ⟨JsEvent.chunkStart i tc bytes tB :: (procReads i tc tB bytes [] rs).events,
         .failed .abortError, 1, (procReads i tc tB bytes [] rs).bytes⟩ := by
  simp [streamDownloadAux, ha, hf]

/-- Step equation for `streamDownloadAux`: a fully delivered chunk flushes
its leftover buffer and recurses on the remaining chunks. -/
theorem streamAux_reads (env : JsEnv) (d m : String) (tc tB i bytes : Nat)
    (acc : Text) (c : String) (cs : List String) (rs : List Text)
    (ha : env.aborted i = false) (hf : env.fetch i = .reads rs) :
    streamDownloadAux env d m tc tB i (c :: cs) bytes acc
      = ⟨JsEvent.chunkStart i tc bytes tB :: ((procReads i tc tB bytes [] rs).events
            ++ (streamDownloadAux env d m tc tB (i + 1) cs
                  (procReads i tc tB bytes [] rs).bytes
                  (acc ++ (procReads i tc tB bytes [] rs).emitted
                    ++ (if (procReads i tc tB bytes [] rs).buffer = [] then []
                        else (procReads i tc tB bytes [] rs).buffer ++ ['\n']))).events),
         (streamDownloadAux env d m tc tB (i + 1) cs
                  (procReads i tc tB bytes [] rs).bytes
                  (acc ++ (procReads i tc tB bytes [] rs).emitted
                    ++ (if (procReads i tc tB bytes [] rs).buffer = [] then []
                        else (procReads i tc tB bytes [] rs).buffer ++ ['\n']))).outcome,
         (streamDownloadAux env d m tc tB (i + 1) cs
                  (procReads i tc tB bytes [] rs).bytes
                  (acc ++ (procReads i tc tB bytes [] rs).emitted
                    ++ (if (procReads i tc tB bytes [] rs).buffer = [] then []
                        else (procReads i tc tB bytes [] rs).buffer ++ ['\n']))).fetches + 1,
         (streamDownloadAux env d m tc tB (i + 1) cs
                  (procReads i tc tB bytes [] rs).bytes
                  (acc ++ (procReads i tc tB bytes [] rs).emitted
                    ++ (if (procReads i tc tB bytes [] rs).buffer = [] then []
                        else (procReads i tc tB bytes [] rs).buffer ++ ['\n']))).finalBytes⟩ := by
  simp [streamDownloadAux, ha, hf]

/-- The chunk loop of `streamDownload`: `bytesDownloaded` only grows, every
notification carries a value between the entry count and the final count,
and the fired sequence is non-decreasing. -/
theorem streamAux_spec (env : JsEnv) (d m : String) (tc tB : Nat) :
    ∀ (cs : List String) (i bytes : Nat) (acc : Text),
      bytes ≤ (streamDownloadAux env d m tc tB i cs bytes acc).finalBytes
      ∧ (∀ e ∈ (streamDownloadAux env d m tc tB i cs bytes acc).events,
          bytes ≤ e.bytes
            ∧ e.bytes ≤ (streamDownloadAux env d m tc tB i cs bytes acc).finalBytes)
      ∧ ((streamDownloadAux env d m tc tB i cs bytes acc).events.map JsEvent.bytes).Sorted
          (· ≤ ·) := by
  intro cs
  induction cs with
  | nil =>
    intro i bytes acc
    refine ⟨Nat.le_refl _, ?_, ?_⟩ <;> simp [streamDownloadAux, JsEvent.bytes]
  | cons c cs ih =>
    intro i bytes acc
    cases ha : env.aborted i with
    | true =>
      rw [streamAux_aborted env d m tc tB i bytes acc c cs ha]
      refine ⟨Nat.le_refl _, ?_, ?_⟩ <;> simp
    | false =>
      cases hf : env.fetch i with
      | netFail =>
        rw [streamAux_netFail env d m tc tB i bytes acc c cs ha hf]
        refine ⟨Nat.le_refl _, ?_, ?_⟩ <;> simp [JsEvent.bytes]
      | notOk s =>
        rw [streamAux_notOk env d m tc tB i bytes acc c cs s ha hf]
        refine ⟨Nat.le_refl _, ?_, ?_⟩ <;> simp [JsEvent.bytes]
      | readsThenAbort rs =>
        obtain ⟨p1, p2, p3⟩ := procReads_spec i tc tB rs bytes []
        rw [streamAux_readsThenAbort env d m tc tB i bytes acc c cs rs ha hf]
        refine ⟨p1, ?_, ?_⟩
        · intro e he
          rcases List.mem_cons.mp he with he | he
          · subst he
            exact ⟨Nat.le_refl _, p1⟩
          · obtain ⟨h1, h2, _⟩ := p2 e he
            exact ⟨h1, h2⟩
        · rw [List.map_cons, List.sorted_cons]
          refine ⟨?_, p3⟩
          intro b hb
          obtain ⟨e, he, rfl⟩ := List.mem_map.mp hb
          exact (p2 e he).1
      | reads rs =>
        obtain ⟨p1, p2, p3⟩ := procReads_spec i tc tB rs bytes []
        obtain ⟨r1, r2, r3⟩ := ih (i + 1) (procReads i tc tB bytes [] rs).bytes
          (acc ++ (procReads i tc tB bytes [] rs).emitted
            ++ (if (procReads i tc tB bytes [] rs).buffer = [] then []
                else (procReads i tc tB bytes [] rs).buffer ++ ['\n']))
        rw [streamAux_reads env d m tc tB i bytes acc c cs rs ha hf]
        refine ⟨Nat.le_trans p1 r1, ?_, ?_⟩
        · intro e he
          rcases List.mem_cons.mp he with he | he
          · subst he
            exact ⟨Nat.le_refl _, Nat.le_trans p1 r1⟩
          · rcases List.mem_append.mp he with he | he
            · obtain ⟨h1, h2, _⟩ := p2 e he
              exact ⟨h1, Nat.le_trans h2 r1⟩
            · obtain ⟨h1, h2⟩ := r2 e he
              exact ⟨Nat.le_trans p1 h1, h2⟩
        · rw [List.map_cons, List.map_append, List.sorted_cons]
          constructor
          · intro b hb
            rcases List.mem_append.mp hb with hb | hb
            · obtain ⟨e, he, rfl⟩ := List.mem_map.mp hb
              exact (p2 e he).1
            · obtain ⟨e, he, rfl⟩ := List.mem_map.mp hb
              exact Nat.le_trans p1 (r2 e he).1
          · refine sorted_le_append p3 r3 ?_
            intro a hla b hlb
            obtain ⟨e, he, rfl⟩ := List.mem_map.mp hla
            obtain ⟨e2, he2, rfl⟩ := List.mem_map.mp hlb
            exact Nat.le_trans (p2 e he).2.1 (r2 e2 he2).1

/-- On a run that is never aborted and whose fetches all deliver full
bodies, the trace contains exactly one `complete` notification and it comes
last. -/
theorem streamAux_success (env : JsEnv) (d m : String) (tc tB : Nat) :
    ∀ (cs : List String) (i bytes : Nat) (acc : Text),
      (∀ j, j < cs.length → env.aborted (i + j) = false
        ∧ ∃ rs, env.fetch (i + j) = .reads rs) →
      (streamDownloadAux env d m tc tB i cs bytes acc).events.filter JsEvent.isComplete
        = [.complete (streamDownloadAux env d m tc tB i cs bytes acc).finalBytes tB]
      ∧ (streamDownloadAux env d m tc tB i cs bytes acc).events.getLast?
        = some (.complete (streamDownloadAux env d m tc tB i cs bytes acc).finalBytes tB) := by
  intro cs
  induction cs with
  | nil =>
    intro i bytes acc _
    exact ⟨rfl, rfl⟩
  | cons c cs ih =>
    intro i bytes acc h
    obtain ⟨ha, rs, hf⟩ := by simpa using h 0 (Nat.succ_pos _)
    obtain ⟨p1, p2, _⟩ := procReads_spec i tc tB rs bytes []
    obtain ⟨f1, f2⟩ := ih (i + 1) (procReads i tc tB bytes [] rs).bytes
      (acc ++ (procReads i tc tB bytes [] rs).emitted
        ++ (if (procReads i tc tB bytes [] rs).buffer = [] then []
            else (procReads i tc tB bytes [] rs).buffer ++ ['\n']))
      (by
        intro j hj
        have := h (j + 1) (by simpa using Nat.succ_lt_succ hj)
        rwa [show i + (j + 1) = i + 1 + j by omega] at this)
    rw [streamAux_reads env d m tc tB i bytes acc c cs rs ha hf]
    have hnoco : ∀ e ∈ (procReads i tc tB bytes [] rs).events, ¬ (JsEvent.isComplete e = true) := by
      intro e he hc
      rw [(p2 e he).2.2] at hc
      cases hc
    have hne : (streamDownloadAux env d m tc tB (i + 1) cs
        (procReads i tc tB bytes [] rs).bytes
        (acc ++ (procReads i tc tB bytes [] rs).emitted
          ++ (if (procReads i tc tB bytes [] rs).buffer = [] then []
              else (procReads i tc tB bytes [] rs).buffer ++ ['\n']))).events ≠ [] := by
      intro hnil
      rw [hnil] at f2
      cases f2
    constructor
    · rw [List.filter_cons, List.filter_append]
      rw [List.filter_eq_nil_iff.mpr hnoco]
      simpa [JsEvent.isComplete] using f1
    · rw [← List.cons_append, List.getLast?_append_of_ne_nil _ hne]
      exact f2

/-! ## Claim theorems -/

/-- Claim C1 (code bug).  On the specification's own scenario — month
`202510`, chunk 1 ending in the fragment `https://b.co`, chunk 2 beginning
`m,1000\n` — the browser engine does *not* reassemble the split row: it
flushes each chunk's trailing fragment as a line of its own (lines 197-200
of `docs/download.js` run per chunk, with the buffer reset at line 169), so
the merged artifact contains the two fragment rows `https://b.co` and
`m,1000` and never the row `https://b.com,1000`.  Plain byte concatenation
of the same chunks (what `download.sh` produces) yields the correctly
reassembled row list. -/
theorem c1_js_emits_split_row_as_two_rows :
    (streamDownload envJsScenario globalS month202510S [chunkFile0S, chunkFile1S] 69).outcome
      = .artifact (artifactName globalS month202510S) jsBuggyOutS.toList
    ∧ linesOf jsBuggyOutS.toList
      = [headerS.toList, rowAS.toList, fragB1S.toList, fragB2S.toList, rowCS.toList]
    ∧ linesOf mergedS.toList
      = [headerS.toList, rowAS.toList, rowBS.toList, rowCS.toList] := by
  refine ⟨by decide, by decide, by decide⟩

/-- Claim C2 (code bug).  The shell downloader satisfies the claim on the
scenario: its output is the byte concatenation of the chunks, whose first
line is the header and whose remaining lines are the chunks' non-header
content in order.  The browser engine violates it on the very same input:
because of the newline it inserts at the chunk boundary, the remaining
lines of its merged artifact are not the concatenation of the chunks'
non-header content. -/
theorem c2_merged_lines_vs_concatenation :
    runScript envShellScenario (ShellArgs.mk globalS (some month202510S)) none
      = ⟨.completed, some month202510S, some mergedS.toList, 2, some none⟩
    ∧ linesOf mergedS.toList = headerS.toList :: linesOf nonHeaderConcatS.toList
    ∧ (streamDownload envJsScenario globalS month202510S [chunkFile0S, chunkFile1S] 69).outcome
      = .artifact (artifactName globalS month202510S) jsBuggyOutS.toList
    ∧ linesOf jsBuggyOutS.toList ≠ headerS.toList :: linesOf nonHeaderConcatS.toList := by
  refine ⟨by decide, by decide, by decide, by decide⟩

/-- Claim C3 (code bug).  For an absent dataset the manifest URL answers
HTTP 404; since `download.sh` invokes `curl -sSL` without `-f`, curl exits 0
and hands the script the error page `404: Not Found` as manifest text, so
the `Dataset not found` branch (line 59) never fires.  With a month
supplied the run fails with the month-not-found diagnostic instead, and
with no month it fails with the no-data diagnostic — in both runs no chunk
fetch is issued. -/
theorem c3_absent_dataset_not_reported_as_such :
    runScript envShell404 (ShellArgs.mk nosuchS (some month202510S)) none
      = ⟨.monthNotFound, none, none, 0, none⟩
    ∧ (runScript envShell404 (ShellArgs.mk nosuchS none) none).outcome = .noData
    ∧ (runScript envShell404 (ShellArgs.mk nosuchS none) none).chunksFetched = 0 := by
  refine ⟨by decide, by decide, by decide⟩

/-- Claim C4 (code bug).  When the middle one of three chunk fetches
answers a non-success HTTP status, `curl -sSL` (no `-f`) still exits 0, so
the `download.sh` loop (lines 116-131) appends the error page `404: Not
Found` to the output file, reports the chunk as downloaded, fetches the
remaining chunk, and completes with exit 0: the download is not aborted,
no failure is reported, and the corrupted merged file is left as a
finished artifact. -/
theorem c4_chunk_http_error_continues_download :
    runScript envShellHttpErr (ShellArgs.mk globalS (some month202510S)) none
      = ⟨.completed, some month202510S, some corrupted3S.toList, 3, some none⟩ := by
  decide

/-- Claim C5 (code bug).  Cancelling between chunks (signal observed at the
boundary check before chunk 1 of 3) makes `streamDownload` run
`controller.close(); return` (lines 142-145): the stream closes normally,
`downloadMonth` resolves successfully — no `Cancelled` failure — and the
partial content of chunk 0 is handed to the browser as a finished download
under the standard artifact name.  Only one fetch is issued (no further
chunks are requested). -/
theorem c5_boundary_cancel_produces_artifact :
    downloadMonth ⟨false, false⟩ globalS mfJs month202510S envJsAbortBoundary
      = ⟨.ok ⟨[.chunkStart 0 3 0 93, .progress 0 3 31 93],
              .artifact (artifactName globalS month202510S) part0S.toList, 1, 31⟩,
         ⟨false, false⟩, 1⟩ := by
  rfl

/-- Claim C8 (code bug).  A chunk fetch failure (HTTP non-success on the
last of two chunks) does not make `download.sh` exit non-zero with a
diagnostic: the run completes with exit status 0, prints no error, and
leaves the corrupted `202510.csv` in the working directory. -/
theorem c8_fetch_failure_exits_zero_without_diagnostic :
    ShellOutcome.exitsZero
        (runScript envShellLast404 (ShellArgs.mk globalS (some month202510S)) none).outcome
      = true
    ∧ ShellOutcome.printsDiagnostic
        (runScript envShellLast404 (ShellArgs.mk globalS (some month202510S)) none).outcome
      = false
    ∧ (runScript envShellLast404 (ShellArgs.mk globalS (some month202510S)) none).outFile
      = some corrupted2S.toList
    ∧ (runScript envShellLast404 (ShellArgs.mk globalS (some month202510S)) none).resolvedMonth
      = some month202510S := by
  refine ⟨by decide, by decide, by decide, by decide⟩

/-- Claim C9, counterexample to the claim as stated.  An invocation that
resolves month `202510` (the manifest's declared latest month) but whose
manifest lists no chunk filenames exits at the `No chunks found` check
(line 97), which runs *before* the existing-file removal (lines 107-110):
the run fails (exit 1) yet the pre-existing `202510.csv` is still in the
working directory. -/
theorem c9_failed_run_can_keep_old_file :
    runScript envShellNoChunks (ShellArgs.mk globalS (some month202510S)) (some oldS.toList)
      = ⟨.noChunks, some month202510S, some oldS.toList, 0, none⟩
    ∧ ShellOutcome.exitsZero .noChunks = false := by
  refine ⟨by decide, rfl⟩

/-- Claim C7, counterexample to the claim as stated.  The run cancelled at
the boundary before chunk 1 ends without any terminal notification at all —
no `complete` event is fired (the `return` at line 144 skips line 209) and
no `failed` notification exists anywhere in the engine — while the stream
still closes normally and produces an artifact.  So it is not the case
that every download delivers exactly one terminal notification. -/
theorem c7_aborted_run_has_no_terminal_notification :
    (streamDownload envJsAbortBoundary globalS month202510S
        [chunkFile0S, chunkFile1S, chunkFile2S] 93).events.filter JsEvent.isComplete
      = []
    ∧ (streamDownload envJsAbortBoundary globalS month202510S
        [chunkFile0S, chunkFile1S, chunkFile2S] 93).outcome
      = .artifact (artifactName globalS month202510S) part0S.toList := by
  refine ⟨by decide, by decide⟩

/-- Claim C6 (confirmed).  Omitting the month makes `download.sh` resolve
the manifest's declared latest month (lines 80-90) and then run exactly the
same extraction and chunk loop as an explicit request for that month: for
every environment and pre-existing file state, the run with no month given
is identical to the run that requests the latest month, provided the
manifest declares that latest month (in `YYYYMM` form, so that the explicit
run passes the format check; its quoted form then necessarily appears in
the manifest text, which is what the explicit run's existence check greps
for). -/
theorem c6_omitted_month_equals_latest
    (env : ShellEnv) (pre : Option Text) (d m : String)
    (hm : latestMonthOf env.manifest.output = some m)
    (hfmt : isSixDigits m = true)
    (hmention : mentionsMonth env.manifest.output m = true) :
    runScript env (ShellArgs.mk d none) pre = runScript env (ShellArgs.mk d (some m)) pre := by
  unfold runScript
  by_cases hd : d.isEmpty
  · simp [hd]
  · by_cases hman : env.manifest.exitOk = false
    · simp [hd, hman, monthFormatOk, hfmt]
    · by_cases hbody : env.manifest.output = []
      · simp [hd, hman, hbody, monthFormatOk, hfmt]
      · simp [hd, hman, hbody, monthFormatOk, hfmt, hm, hmention]

/-- Witness for C6 at the concrete scenario manifest. -/
theorem c6_witness :
    runScript envShellScenario (ShellArgs.mk globalS none) none
      = runScript envShellScenario (ShellArgs.mk globalS (some month202510S)) none :=
  c6_omitted_month_equals_latest envShellScenario none globalS month202510S
    (by decide) (by decide) (by decide)

/-- Claim C7 (corrected).  What does hold of the notification stream: the
`bytesDownloaded` values across any download's notifications are
monotonically non-decreasing, and a download that is never aborted and
whose chunk fetches all deliver full bodies fires exactly one terminal
`complete` notification, as its last notification.  (On failed or aborted
downloads the engine fires no terminal notification — failure is signalled
by the stream rejecting, and a boundary abort closes the stream silently —
see the counterexample.) -/
theorem c7_monotone_bytes_single_complete
    (env : JsEnv) (d m : String) (chunks : List String) (tB : Nat) :
    ((streamDownload env d m chunks tB).events.map JsEvent.bytes).Sorted (· ≤ ·)
    ∧ ((∀ j, j < chunks.length → env.aborted j = false ∧ ∃ rs, env.fetch j = .reads rs) →
        (streamDownload env d m chunks tB).events.filter JsEvent.isComplete
          = [.complete (streamDownload env d m chunks tB).finalBytes tB]
        ∧ (streamDownload env d m chunks tB).events.getLast?
          = some (.complete (streamDownload env d m chunks tB).finalBytes tB)) := by
  constructor
  · exact (streamAux_spec env d m chunks.length tB chunks 0 0 []).2.2
  · intro h
    exact streamAux_success env d m chunks.length tB chunks 0 0 []
      (fun j hj => by simpa using h j hj)

/-- Witness for C7 on a clean one-chunk run. -/
theorem c7_witness :
    ((streamDownload envJsClean globalS month202510S [chunkFile0S] 31).events.map
        JsEvent.bytes).Sorted (· ≤ ·)
    ∧ (streamDownload envJsClean globalS month202510S [chunkFile0S] 31).events.filter
        JsEvent.isComplete
      = [.complete 31 31]
    ∧ (streamDownload envJsClean globalS month202510S [chunkFile0S] 31).events.getLast?
      = some (.complete 31 31) := by
  have h := c7_monotone_bytes_single_complete envJsClean globalS month202510S [chunkFile0S] 31
  have h2 := h.2 (fun j hj => ⟨rfl, ⟨[part0S.toList], rfl⟩⟩)
  exact ⟨h.1, h2.1, h2.2⟩

/-- The post-resolution part of the script: either no chunk is listed and
the file system is untouched with no fetch, or the loop runs from an absent
output file and cleans up on failure. -/
theorem afterResolve_spec (env : ShellEnv) (m : String) (body : Text) (pre : Option Text) :
    ((afterResolve env m body pre).fileAtFirstFetch = none
      ∨ (afterResolve env m body pre).fileAtFirstFetch = some none)
    ∧ (∀ j, (afterResolve env m body pre).outcome = .chunkFailed j →
        (afterResolve env m body pre).outFile = none) := by
  unfold afterResolve
  by_cases hcs : chunksOf body m = []
  · simp [hcs]
  · rw [if_neg hcs]
    constructor
    · exact chunkLoop_start_seen env m (chunksOf body m) 0 0
    · intro j hj
      exact chunkLoop_failed_outFile env m _ _ _ _ _ j hj

/-- Claim C9 (corrected).  What does hold: in every run of `download.sh`,
if a chunk fetch happens at all then the output file was absent at the
moment the first chunk fetch was issued (any pre-existing file had just
been removed), and every run that fails inside the chunk loop leaves no
output file behind (`rm -f` before `exit 1`).  The claim as stated fails
only for runs that resolve a month but die at the `No chunks found` check,
which precedes the removal — see the counterexample. -/
theorem c9_removed_before_first_fetch_and_loop_failure_cleans
    (env : ShellEnv) (args : ShellArgs) (pre : Option Text) :
    ((runScript env args pre).fileAtFirstFetch = none
      ∨ (runScript env args pre).fileAtFirstFetch = some none)
    ∧ (∀ j, (runScript env args pre).outcome = .chunkFailed j →
        (runScript env args pre).outFile = none) := by
  obtain ⟨ds, rm⟩ := args
  unfold runScript
  by_cases hd : ds.isEmpty
  · simp [hd]
  · by_cases hfmt : monthFormatOk rm
    · by_cases hman : env.manifest.exitOk = false
      · simp [hd, hfmt, hman]
      · by_cases hbody : env.manifest.output = []
        · simp [hd, hfmt, hman, hbody]
        · cases rm with
          | some m =>
            by_cases hmention : mentionsMonth env.manifest.output m
            · have := afterResolve_spec env m env.manifest.output pre
              simpa [hd, hfmt, hman, hbody, hmention] using this
            · simp [hd, hfmt, hman, hbody, hmention]
          | none =>
            cases hlm : latestMonthOf env.manifest.output with
            | some m =>
              have := afterResolve_spec env m env.manifest.output pre
              simpa [hd, hfmt, hman, hbody, hlm] using this
            | none => simp [hd, hfmt, hman, hbody, hlm]
    · simp [hd, hfmt]

/-- Witness for C9: a run whose second chunk fetch fails at the network
level removed the pre-existing file before the first fetch and leaves no
output file behind. -/
theorem c9_witness :
    ((runScript envShellChunkFail (ShellArgs.mk globalS (some month202510S))
        (some oldS.toList)).fileAtFirstFetch = none
      ∨ (runScript envShellChunkFail (ShellArgs.mk globalS (some month202510S))
        (some oldS.toList)).fileAtFirstFetch = some none)
    ∧ (runScript envShellChunkFail (ShellArgs.mk globalS (some month202510S))
        (some oldS.toList)).outFile = none :=
  ⟨(c9_removed_before_first_fetch_and_loop_failure_cleans envShellChunkFail
      (ShellArgs.mk globalS (some month202510S)) (some oldS.toList)).1,
   (c9_removed_before_first_fetch_and_loop_failure_cleans envShellChunkFail
      (ShellArgs.mk globalS (some month202510S)) (some oldS.toList)).2 1 (by decide)⟩

/-- Claim C10 (confirmed).  `downloadMonth` rejects while a download is in
flight, without touching the state or issuing any fetch; a missing month
also rejects before any fetch or state change; and every download that
starts ends — whatever its outcome — with `isDownloading` reset to `false`
and `abortController` reset to `null` (the `finally` block, lines
120-123). -/
theorem c10_downloadMonth_guard_and_reset :
    (∀ (st : DLState) (d : String) (mf : JsManifest) (m : String) (env : JsEnv),
      st.isDownloading = true →
      downloadMonth st d mf m env = ⟨.error .alreadyInProgress, st, 0⟩)
    ∧ (∀ (st : DLState) (d : String) (mf : JsManifest) (m : String) (env : JsEnv),
      st.isDownloading = false → mf.months.lookup m = none →
      downloadMonth st d mf m env = ⟨.error (.monthNotFound m), st, 0⟩)
    ∧ (∀ (st : DLState) (d : String) (mf : JsManifest) (m : String) (env : JsEnv)
        (md : JsMonth),
      st.isDownloading = false → mf.months.lookup m = some md →
      (downloadMonth st d mf m env).state = ⟨false, false⟩) := by
  refine ⟨?_, ?_, ?_⟩
  · intro st d mf m env h
    simp [downloadMonth, h]
  · intro st d mf m env h hl
    simp [downloadMonth, h, hl]
  · intro st d mf m env md h hl
    simp only [downloadMonth, h, hl, Bool.false_eq_true, if_false]
    cases (streamDownload env d m md.chunks md.total_size).outcome <;> rfl

/-- Witness for C10 at concrete states and inputs. -/
theorem c10_witness :
    downloadMonth ⟨true, false⟩ globalS mfJs month202510S envJsClean
      = ⟨.error .alreadyInProgress, ⟨true, false⟩, 0⟩
    ∧ downloadMonth ⟨false, false⟩ globalS mfJs nosuchS envJsClean
      = ⟨.error (.monthNotFound nosuchS), ⟨false, false⟩, 0⟩
    ∧ (downloadMonth ⟨false, false⟩ globalS mfJs month202510S envJsAbortBoundary).state
      = ⟨false, false⟩ :=
  ⟨c10_downloadMonth_guard_and_reset.1 ⟨true, false⟩ globalS mfJs month202510S envJsClean rfl,
   c10_downloadMonth_guard_and_reset.2.1 ⟨false, false⟩ globalS mfJs nosuchS envJsClean rfl
     rfl,
   c10_downloadMonth_guard_and_reset.2.2 ⟨false, false⟩ globalS mfJs month202510S
     envJsAbortBoundary ⟨[chunkFile0S, chunkFile1S, chunkFile2S], 93⟩ rfl rfl⟩

end CruxCache
